import Mathlib

/-!
Verification of the masleka_bot per-client extraction pipeline.

The Python source is shallowly embedded: every Selenium / filesystem
primitive that the modelled functions call is represented by an explicit
environment record (its observed results, including whether a call raised),
and the modelled functions are total Lean functions over those environments.
File names, directory contents and report lines are strings; browser window
handles are natural numbers.
-/

/-- Python whitespace test used by `str.strip` (ASCII subset). -/
def isPySpace (c : Char) : Bool :=
  c = ' ' || c = '\t' || c = '\n' || c = '\r' || c = '\x0b' || c = '\x0c'

/-- Strip leading and trailing whitespace from a character list
(the semantics of Python `str.strip()`). -/
def stripChars (l : List Char) : List Char :=
  ((l.dropWhile isPySpace).reverse.dropWhile isPySpace).reverse

/-- Python `str.strip()` on strings. -/
def pyStrip (s : String) : String :=
  String.mk (stripChars s.data)

/-- Python `str.replace(pat, rep)` on character lists, for a nonempty
pattern `p :: ps`: replace every non-overlapping occurrence left to right. -/
def replaceList (p : Char) (ps rep : List Char) : List Char → List Char
  | [] => []
  | c :: rest =>
    if (p :: ps).isPrefixOf (c :: rest) then
      rep ++ replaceList p ps rep (rest.drop ps.length)
    else
      c :: replaceList p ps rep rest
termination_by l => l.length
decreasing_by
  · simp only [List.length_drop, List.length_cons]
    omega
  · simp only [List.length_cons]
    omega

/-- Python `str.replace` on strings (our call sites never pass an empty
pattern; for an empty pattern this model returns the string unchanged). -/
def pyReplace (s pat rep : String) : String :=
  match pat.data with
  | [] => s
  | p :: ps => String.mk (replaceList p ps rep.data s.data)

/-- Python `pat in s` substring test. -/
def containsSub (s pat : String) : Bool :=
  s.data.tails.any (fun t => pat.data.isPrefixOf t)

/-- Python dict assignment `d[k] = v` on an ordered association list:
an existing key keeps its position and gets the new value, a new key is
appended at the end. -/
def dinsert (d : List (String × String)) (k v : String) : List (String × String) :=
  if d.any (fun p => p.1 = k) then
    d.map (fun p => if p.1 = k then (k, v) else p)
  else
    d ++ [(k, v)]

/-! ### Helper lemmas -/

theorem head_dropWhile_false (p : α → Bool) (l : List α) (a : α)
    (h : l.dropWhile p ≠ []) : p ((l.dropWhile p).headD a) = false := by
  induction l with
  | nil => simp at h
  | cons c rest ih =>
    rw [List.dropWhile_cons] at h ⊢
    by_cases hc : p c = true
    · rw [if_pos hc] at h ⊢
      exact ih h
    · rw [if_neg hc]
      simpa using hc

theorem stripChars_sublist_dropWhile (l : List Char) :
    stripChars l <+: l.dropWhile isPySpace := by
  unfold stripChars
  conv_rhs => rw [← List.reverse_reverse (l.dropWhile isPySpace)]
  exact List.reverse_prefix.mpr (List.dropWhile_suffix isPySpace)

theorem stripChars_has_nonspace (l : List Char) (h : stripChars l ≠ []) :
    ∃ c ∈ stripChars l, isPySpace c = false := by
  obtain ⟨c, t, hct⟩ := List.exists_cons_of_ne_nil h
  have hpfx := stripChars_sublist_dropWhile l
  rw [hct] at hpfx
  obtain ⟨r, hr⟩ := hpfx
  have hdrop : l.dropWhile isPySpace ≠ [] := by
    intro hnil; rw [hnil] at hr; exact List.noConfusion hr
  have hhead := head_dropWhile_false isPySpace l c hdrop
  have heq : (l.dropWhile isPySpace).headD c = c := by
    rw [← hr]; rfl
  rw [heq] at hhead
  exact ⟨c, by rw [hct]; exact List.mem_cons_self c t, hhead⟩

theorem pyStrip_ne_empty_nonspace (s : String) (h : pyStrip s ≠ "") :
    ∃ c ∈ (pyStrip s).data, isPySpace c = false := by
  have hd : stripChars s.data ≠ [] := by
    intro hnil
    apply h
    unfold pyStrip
    rw [hnil]
  obtain ⟨c, hc, hns⟩ := stripChars_has_nonspace s.data hd
  exact ⟨c, hc, hns⟩

theorem isPrefixOf_append_self (xs rest : List Char) :
    xs.isPrefixOf (xs ++ rest) = true := by
  induction xs with
  | nil => simp [List.isPrefixOf]
  | cons x xt ih => simp [List.isPrefixOf, ih]

theorem replaceList_nil (p : Char) (ps rep : List Char) :
    replaceList p ps rep [] = [] := by
  rw [replaceList]

theorem replaceList_cons (p : Char) (ps rep : List Char) (c : Char) (rest : List Char) :
    replaceList p ps rep (c :: rest) =
      if (p :: ps).isPrefixOf (c :: rest) then
        rep ++ replaceList p ps rep (rest.drop ps.length)
      else
        c :: replaceList p ps rep rest := by
  rw [replaceList]

theorem replaceList_append_occ (p : Char) (ps rep rest : List Char) :
    replaceList p ps rep ((p :: ps) ++ rest) = rep ++ replaceList p ps rep rest := by
  rw [List.cons_append, replaceList_cons]
  rw [if_pos]
  · congr 1
    rw [List.drop_append_of_le_length (by simp)]
    simp
  · rw [← List.cons_append]
    exact isPrefixOf_append_self (p :: ps) rest

theorem replaceList_of_not_contained (p : Char) (ps rep : List Char) :
    ∀ l : List Char, l.tails.any (fun t => (p :: ps).isPrefixOf t) = false →
      replaceList p ps rep l = l := by
  intro l
  induction l with
  | nil => intro _; exact replaceList_nil p ps rep
  | cons c rest ih =>
    intro h
    rw [List.tails_cons, List.any_cons, Bool.or_eq_false_iff] at h
    rw [replaceList_cons, if_neg]
    · rw [ih h.2]
    · simp [h.1]

/-- Single-character replacement is a character map. -/
theorem replaceList_single (a b : Char) :
    ∀ l : List Char, replaceList a [] [b] l = l.map (fun c => if c = a then b else c) := by
  intro l
  induction l with
  | nil => exact replaceList_nil a [] [b]
  | cons c rest ih =>
    rw [replaceList_cons, List.map_cons]
    by_cases hc : c = a
    · subst hc
      rw [if_pos (by simp [List.isPrefixOf])]
      simp [ih]
    · rw [if_neg (by simp [List.isPrefixOf]; exact fun hy => absurd hy.symm hc)]
      simp [hc, ih]

/-! ### The generic-elements key derivation (`DetailBoxExtractor._generate_element_key`) -/

/-- The fixed data-binding prefix stripped from `ng-bind` attributes. -/
def ngBindKnownPrefix : String := "details.vw_HoldingsShow_SavingProductsDetails."

/-- Final key normalization: `key.replace(" ", "_").replace("-", "_")`. -/
def normalizeKey (k : String) : String :=
  pyReplace (pyReplace k " " "_") "-" "_"

/-- Model of `DetailBoxExtractor._generate_element_key`: derive a key for a generic
element from its `name`, `ng-bind` and `class` attributes (each already
defaulted to `""` by the source's `or ""`), and its position. -/
def generate_element_key (nameAttr ngBindAttr classAttr : String) (elementIndex : Nat) : String :=
  let key :=
    if nameAttr ≠ "" then nameAttr
    else if ngBindAttr ≠ "" then pyReplace ngBindAttr ngBindKnownPrefix ""
    else if classAttr ≠ "" ∧ containsSub classAttr "ng-binding" = true then
      "element_" ++ toString elementIndex
    else
      "element_" ++ toString elementIndex
  normalizeKey key

theorem pyReplace_space (k : String) :
    pyReplace k " " "_" = String.mk (k.data.map (fun c => if c = ' ' then '_' else c)) := by
  show String.mk (replaceList ' ' [] ['_'] k.data) = _
  rw [replaceList_single]

theorem pyReplace_dash (k : String) :
    pyReplace k "-" "_" = String.mk (k.data.map (fun c => if c = '-' then '_' else c)) := by
  show String.mk (replaceList '-' [] ['_'] k.data) = _
  rw [replaceList_single]

theorem normalizeKey_eq (k : String) :
    normalizeKey k = String.mk ((k.data.map (fun c => if c = ' ' then '_' else c)).map
      (fun c => if c = '-' then '_' else c)) := by
  unfold normalizeKey
  rw [pyReplace_space, pyReplace_dash]

theorem map_noop (f : α → α) (l : List α) (h : ∀ a ∈ l, f a = a) : l.map f = l := by
  induction l with
  | nil => rfl
  | cons a t ih =>
    rw [List.map_cons, h a (List.mem_cons_self a t),
      ih (fun x hx => h x (List.mem_cons_of_mem a hx))]

theorem digitChar_good (m : Nat) : Nat.digitChar m ≠ ' ' ∧ Nat.digitChar m ≠ '-' := by
  by_cases h : m < 16
  · interval_cases m <;> decide
  · have h16 : ∀ k, k < 16 → m ≠ k := fun k hk he => h (he ▸ hk)
    unfold Nat.digitChar
    rw [if_neg (h16 0 (by omega)), if_neg (h16 1 (by omega)), if_neg (h16 2 (by omega)), if_neg (h16 3 (by omega)), if_neg (h16 4 (by omega)), if_neg (h16 5 (by omega)), if_neg (h16 6 (by omega)), if_neg (h16 7 (by omega)), if_neg (h16 8 (by omega)), if_neg (h16 9 (by omega)), if_neg (h16 10 (by omega)), if_neg (h16 11 (by omega)), if_neg (h16 12 (by omega)), if_neg (h16 13 (by omega)), if_neg (h16 14 (by omega)), if_neg (h16 15 (by omega))]
    decide

theorem toDigitsCore_good (b : Nat) : ∀ (fuel n : Nat) (ds : List Char),
    (∀ c ∈ ds, c ≠ ' ' ∧ c ≠ '-') →
    ∀ c ∈ Nat.toDigitsCore b fuel n ds, c ≠ ' ' ∧ c ≠ '-' := by
  intro fuel
  induction fuel with
  | zero =>
    intro n ds h c hc
    exact h c hc
  | succ fuel ih =>
    intro n ds h c hc
    rw [Nat.toDigitsCore] at hc
    by_cases hz : n / b = 0
    · rw [if_pos hz] at hc
      rcases List.mem_cons.mp hc with h1 | h1
      · rw [h1]; exact digitChar_good (n % b)
      · exact h c h1
    · rw [if_neg hz] at hc
      refine ih (n / b) (Nat.digitChar (n % b) :: ds) ?_ c hc
      intro x hx
      rcases List.mem_cons.mp hx with h1 | h1
      · rw [h1]; exact digitChar_good (n % b)
      · exact h x h1

theorem toString_nat_good (n : Nat) : ∀ c ∈ (toString n).data, c ≠ ' ' ∧ c ≠ '-' := by
  have h : (toString n).data = Nat.toDigitsCore 10 (n + 1) n [] := rfl
  rw [h]
  exact toDigitsCore_good 10 (n + 1) n [] (by intro c hc; simp at hc)

theorem elementKey_good (i : Nat) :
    ∀ c ∈ ("element_" ++ toString i).data, c ≠ ' ' ∧ c ≠ '-' := by
  rw [String.data_append]
  intro c hc
  rcases List.mem_append.mp hc with h | h
  · have h2 : c ∈ ['e', 'l', 'e', 'm', 'e', 'n', 't', '_'] := h
    fin_cases h2 <;> decide
  · exact toString_nat_good i c h

theorem normalizeKey_element (i : Nat) :
    normalizeKey ("element_" ++ toString i) = "element_" ++ toString i := by
  rw [normalizeKey_eq]
  have h1 : ("element_" ++ toString i).data.map (fun c => if c = ' ' then '_' else c) =
      ("element_" ++ toString i).data :=
    map_noop _ _ (fun c hc => by rw [if_neg (elementKey_good i c hc).1])
  rw [h1]
  have h2 : ("element_" ++ toString i).data.map (fun c => if c = '-' then '_' else c) =
      ("element_" ++ toString i).data :=
    map_noop _ _ (fun c hc => by rw [if_neg (elementKey_good i c hc).2])
  rw [h2]

theorem normalizeKey_chars (k : String) :
    ∀ c ∈ (normalizeKey k).data, c ≠ ' ' ∧ c ≠ '-' := by
  rw [normalizeKey_eq]
  intro c hc
  simp only [List.mem_map] at hc
  obtain ⟨y, ⟨x, _, rfl⟩, rfl⟩ := hc
  by_cases hx : x = ' '
  · rw [if_pos hx]
    decide
  · rw [if_neg hx]
    by_cases hd : x = '-'
    · rw [if_pos hd]; decide
    · rw [if_neg hd]; exact ⟨hx, hd⟩

theorem pyReplace_strip (s rest : String)
    (hs : s.data = ngBindKnownPrefix.data ++ rest.data)
    (hnc : containsSub rest ngBindKnownPrefix = false) :
    pyReplace s ngBindKnownPrefix "" = rest := by
  rcases h : ngBindKnownPrefix.data with _ | ⟨p, ps⟩
  · exact absurd h (by decide)
  · show (match ngBindKnownPrefix.data with
      | [] => s
      | p :: ps => String.mk (replaceList p ps ("" : String).data s.data)) = rest
    rw [h]
    show String.mk (replaceList p ps ("" : String).data s.data) = rest
    rw [hs, h, replaceList_append_occ]
    rw [replaceList_of_not_contained p ps _ rest.data (by
      unfold containsSub at hnc
      rw [h] at hnc
      exact hnc)]
    rfl

/-- C4: For every element at index `i` processed by the generic-elements pass,
the derived key equals the `name` attribute when non-empty; otherwise the
`ng-bind` attribute with the fixed prefix
`details.vw_HoldingsShow_SavingProductsDetails.` stripped, when non-empty;
otherwise (whether or not the `ng-binding` marker class is present) the
positional key `element_<i>`; and in every case every space and hyphen in the
final key is replaced with an underscore. -/
theorem C4_generate_element_key_correct
    (nameAttr ngBindAttr classAttr : String) (i : Nat) :
    (nameAttr ≠ "" →
      generate_element_key nameAttr ngBindAttr classAttr i = normalizeKey nameAttr) ∧
    (nameAttr = "" → ngBindAttr ≠ "" →
      generate_element_key nameAttr ngBindAttr classAttr i =
        normalizeKey (pyReplace ngBindAttr ngBindKnownPrefix "")) ∧
    (nameAttr = "" → ngBindAttr = "" →
      generate_element_key nameAttr ngBindAttr classAttr i = "element_" ++ toString i) ∧
    (∀ rest : String, nameAttr = "" → ngBindAttr = ngBindKnownPrefix ++ rest →
      containsSub rest ngBindKnownPrefix = false →
      generate_element_key nameAttr ngBindAttr classAttr i = normalizeKey rest) ∧
    (generate_element_key nameAttr ngBindAttr classAttr i =
      generate_element_key nameAttr ngBindAttr "" i) ∧
    (∀ c ∈ (generate_element_key nameAttr ngBindAttr classAttr i).data, c ≠ ' ' ∧ c ≠ '-') := by
  refine ⟨?_, ?_, ?_, ?_, ?_, ?_⟩
  · intro h
    unfold generate_element_key
    rw [if_pos h]
  · intro h1 h2
    unfold generate_element_key
    rw [if_neg (fun hn => hn h1), if_pos h2]
  · intro h1 h2
    unfold generate_element_key
    rw [if_neg (fun hn => hn h1), if_neg (fun hn => hn h2), ite_self]
    exact normalizeKey_element i
  · intro rest h1 hng hnc
    have hne : ngBindAttr ≠ "" := by
      rw [hng]
      intro he
      have hd := congrArg String.data he
      rw [String.data_append] at hd
      exact absurd (List.append_eq_nil.mp hd).1 (by decide)
    unfold generate_element_key
    rw [if_neg (fun hn => hn h1), if_pos hne]
    rw [pyReplace_strip ngBindAttr rest
      (by rw [hng, String.data_append]) hnc]
  · unfold generate_element_key
    by_cases h1 : nameAttr ≠ ""
    · rw [if_pos h1, if_pos h1]
    · rw [if_neg h1, if_neg h1]
      by_cases h2 : ngBindAttr ≠ ""
      · rw [if_pos h2, if_pos h2]
      · rw [if_neg h2, if_neg h2, ite_self, ite_self]
  · exact fun c hc => normalizeKey_chars _ c hc

/-- Witness for C4 at concrete attribute values. -/
theorem C4_generate_element_key_witness :
    generate_element_key "a b-c" "x" "y" 3 = normalizeKey "a b-c" ∧
    generate_element_key "" "" "ng-binding other" 7 = "element_" ++ toString 7 :=
  ⟨(C4_generate_element_key_correct "a b-c" "x" "y" 3).1 (by decide),
   (C4_generate_element_key_correct "" "" "ng-binding other" 7).2.2.1 rfl rfl⟩

/-! ### Detail-box extraction (`DetailBoxExtractor.extract_all_detail_box_data`)

A detail box is modelled by the outcomes of the four extraction passes:
for each pass, the elements the corresponding `find_elements` returned, each
either `none` (reading that element raised, and the per-element handler skips
it) or its observed `text` and attributes; plus one flag per pass for the
pass-level handler and a flag for the outer handler that stores the `Error`
key. -/

/-- One generic element of the `basic_elements` pass. -/
structure ElemData where
  text : String
  nameAttr : String
  ngBindAttr : String
  classAttr : String
deriving DecidableEq

/-- One element of the currency / percentage / link passes: its text and its
`name` attribute (`""` models a missing attribute, as the source's `or` does). -/
structure TaggedElem where
  text : String
  nameAttr : String
deriving DecidableEq

/-- Observed outcomes of everything `extract_all_detail_box_data` calls. -/
structure DetailBoxEnv where
  basicRaises : Bool
  basics : List (Option ElemData)
  currencyRaises : Bool
  currencies : List (Option TaggedElem)
  percentageRaises : Bool
  percentages : List (Option TaggedElem)
  linkRaises : Bool
  links : List (Option TaggedElem)
  outerRaises : Bool
  errMsg : String

/-- A Python dict as an ordered association list. -/
abbrev Dict := List (String × String)

/-- Model of `DetailBoxExtractor._extract_basic_elements`. -/
def extract_basic_elements (elems : List (Option ElemData)) (d : Dict) : Dict :=
  elems.enum.foldl (fun d pair =>
    match pair.2 with
    | none => d
    | some e =>
      let t := pyStrip e.text
      if t = "" then d
      else dinsert d (generate_element_key e.nameAttr e.ngBindAttr e.classAttr pair.1) t) d

/-- Model of `_extract_currency_elements` / `_extract_percentage_elements` /
`_extract_link_elements`, which differ only in the positional fallback key. -/
def extract_tagged_elements (fallback : String) (elems : List (Option TaggedElem))
    (d : Dict) : Dict :=
  elems.enum.foldl (fun d pair =>
    match pair.2 with
    | none => d
    | some e =>
      let t := pyStrip e.text
      if t = "" then d
      else dinsert d (if e.nameAttr ≠ "" then e.nameAttr else fallback ++ toString pair.1) t) d

/-- The dict after the `_extract_basic_elements` pass (empty when that pass's
`find_elements` raised). -/
def detail_after_basic (env : DetailBoxEnv) : Dict :=
  if env.basicRaises then [] else extract_basic_elements env.basics []

/-- The dict after the `_extract_currency_elements` pass. -/
def detail_after_currency (env : DetailBoxEnv) : Dict :=
  if env.currencyRaises then detail_after_basic env
  else extract_tagged_elements "currency_" env.currencies (detail_after_basic env)

/-- The dict after the `_extract_percentage_elements` pass. -/
def detail_after_percentage (env : DetailBoxEnv) : Dict :=
  if env.percentageRaises then detail_after_currency env
  else extract_tagged_elements "percentage_" env.percentages (detail_after_currency env)

/-- The dict after the `_extract_link_elements` pass. -/
def detail_after_link (env : DetailBoxEnv) : Dict :=
  if env.linkRaises then detail_after_percentage env
  else extract_tagged_elements "link_" env.links (detail_after_percentage env)

/-- Model of `DetailBoxExtractor.extract_all_detail_box_data`: run the four passes in
order (a pass whose `find_elements` raised contributes nothing), then store an
`Error` entry if the outer handler fired. -/
def extract_all_detail_box_data (env : DetailBoxEnv) : Dict :=
  if env.outerRaises then
    dinsert (detail_after_link env) "Error" ("Failed to extract data: " ++ env.errMsg)
  else detail_after_link env

/-- A dict value that is neither empty nor whitespace-only. -/
abbrev goodVal (v : String) : Prop :=
  v ≠ "" ∧ v.data.all isPySpace = false

/-- The C5 record invariant: unique keys, and every value non-empty and not
whitespace-only. -/
abbrev goodDict (d : Dict) : Prop :=
  (d.map Prod.fst).Nodup ∧ ∀ p ∈ d, goodVal p.2

theorem goodVal_of_nonspace {v : String} (hne : v ≠ "")
    (h : ∃ c ∈ v.data, isPySpace c = false) : goodVal v := by
  refine ⟨hne, ?_⟩
  obtain ⟨c, hc, hns⟩ := h
  rw [List.all_eq_false]
  exact ⟨c, hc, by rw [hns]; decide⟩

theorem goodVal_pyStrip {s : String} (hne : pyStrip s ≠ "") : goodVal (pyStrip s) :=
  goodVal_of_nonspace hne (pyStrip_ne_empty_nonspace s hne)

theorem dinsert_good {d : Dict} {k v : String} (hd : goodDict d) (hv : goodVal v) :
    goodDict (dinsert d k v) := by
  unfold dinsert
  by_cases hany : d.any (fun p => p.1 = k)
  · rw [if_pos hany]
    constructor
    · have hkeys : (d.map (fun p => if p.1 = k then (k, v) else p)).map Prod.fst =
          d.map Prod.fst := by
        rw [List.map_map]
        refine List.map_congr_left ?_
        intro p _
        by_cases hp : p.1 = k
        · simp [hp]
        · simp [hp]
      rw [hkeys]
      exact hd.1
    · intro p hp
      obtain ⟨q, hq, hqe⟩ := List.mem_map.mp hp
      by_cases hqk : q.1 = k
      · rw [if_pos hqk] at hqe
        rw [← hqe]
        exact hv
      · rw [if_neg hqk] at hqe
        rw [← hqe]
        exact hd.2 q hq
  · rw [if_neg hany]
    constructor
    · rw [List.map_append]
      rw [List.nodup_append]
      refine ⟨hd.1, List.nodup_singleton k, ?_⟩
      intro a ha hb
      simp only [List.map_cons, List.map_nil, List.mem_singleton] at hb
      obtain ⟨q, hq, hqe⟩ := List.mem_map.mp ha
      rw [Bool.not_eq_true, List.any_eq_false] at hany
      exact hany q hq (by rw [hqe, hb]; simp)
    · intro p hp
      rcases List.mem_append.mp hp with h | h
      · exact hd.2 p h
      · rw [List.mem_singleton] at h
        rw [h]
        exact hv

theorem foldl_preserve {α β : Type} (P : β → Prop) (f : β → α → β)
    (hf : ∀ b a, P b → P (f b a)) :
    ∀ (l : List α) (b : β), P b → P (l.foldl f b) := by
  intro l
  induction l with
  | nil => intro b hb; exact hb
  | cons a t ih =>
    intro b hb
    exact ih (f b a) (hf b a hb)

theorem extract_basic_elements_good (elems : List (Option ElemData)) (d : Dict)
    (hd : goodDict d) : goodDict (extract_basic_elements elems d) := by
  unfold extract_basic_elements
  refine foldl_preserve goodDict _ ?_ elems.enum d hd
  intro b pair hb
  match pair with
  | (i, none) => exact hb
  | (i, some e) =>
    simp only
    by_cases ht : pyStrip e.text = ""
    · rw [if_pos ht]; exact hb
    · rw [if_neg ht]; exact dinsert_good hb (goodVal_pyStrip ht)

theorem extract_tagged_elements_good (fallback : String)
    (elems : List (Option TaggedElem)) (d : Dict)
    (hd : goodDict d) : goodDict (extract_tagged_elements fallback elems d) := by
  unfold extract_tagged_elements
  refine foldl_preserve goodDict _ ?_ elems.enum d hd
  intro b pair hb
  match pair with
  | (i, none) => exact hb
  | (i, some e) =>
    simp only
    by_cases ht : pyStrip e.text = ""
    · rw [if_pos ht]; exact hb
    · rw [if_neg ht]; exact dinsert_good hb (goodVal_pyStrip ht)

/-- C5: every record returned by `extract_all_detail_box_data` has pairwise
distinct keys, and no stored value is the empty string or whitespace-only. -/
theorem C5_extract_all_detail_box_data_invariant (env : DetailBoxEnv) :
    ((extract_all_detail_box_data env).map Prod.fst).Nodup ∧
    ∀ p ∈ extract_all_detail_box_data env, p.2 ≠ "" ∧ p.2.data.all isPySpace = false := by
  have hnil : goodDict ([] : Dict) := ⟨List.nodup_nil, by intro p hp; simp at hp⟩
  have h1 : goodDict (detail_after_basic env) := by
    unfold detail_after_basic
    by_cases hb : env.basicRaises
    · rw [if_pos hb]; exact hnil
    · rw [if_neg hb]; exact extract_basic_elements_good env.basics [] hnil
  have h2 : goodDict (detail_after_currency env) := by
    unfold detail_after_currency
    by_cases hb : env.currencyRaises
    · rw [if_pos hb]; exact h1
    · rw [if_neg hb]; exact extract_tagged_elements_good _ _ _ h1
  have h3 : goodDict (detail_after_percentage env) := by
    unfold detail_after_percentage
    by_cases hb : env.percentageRaises
    · rw [if_pos hb]; exact h2
    · rw [if_neg hb]; exact extract_tagged_elements_good _ _ _ h2
  have h4 : goodDict (detail_after_link env) := by
    unfold detail_after_link
    by_cases hb : env.linkRaises
    · rw [if_pos hb]; exact h3
    · rw [if_neg hb]; exact extract_tagged_elements_good _ _ _ h3
  have hfinal : goodDict (extract_all_detail_box_data env) := by
    unfold extract_all_detail_box_data
    by_cases ho : env.outerRaises
    · rw [if_pos ho]
      refine dinsert_good h4 ?_
      refine goodVal_of_nonspace ?_ ?_
      · intro he
        have hd := congrArg String.data he
        rw [String.data_append] at hd
        exact absurd (List.append_eq_nil.mp hd).1 (by decide)
      · refine ⟨'F', ?_, by decide⟩
        rw [String.data_append]
        exact List.mem_append.mpr (Or.inl (by decide))
    · rw [if_neg ho]
      exact h4
  exact ⟨hfinal.1, fun p hp => hfinal.2 p hp⟩

/-! ### Client folder naming (`PDFManager.create_identification_folder`) -/

/-- The filesystem-illegal characters sanitized by the source. -/
def invalidChars : List Char := ['/', '\\', ':', '*', '?', '\"', '<', '>', '|']

/-- The sanitization loop: `for char in invalid_chars: folder_name =
folder_name.replace(char, "_")`. -/
def sanitizeFolderName (s : String) : String :=
  invalidChars.foldl (fun acc c => pyReplace acc (String.mk [c]) "_") s

/-- Model of `PDFManager.create_identification_folder`, given as the folder-name
computation (the `mkdir` side effect carries no further data). A `some ""`
display name is falsy in the source and falls back to the `ID_` naming. -/
def create_identification_folder (idNum : String) (fullname : Option String) : String :=
  match fullname with
  | some ft => if ft ≠ "" then sanitizeFolderName ft else "ID_" ++ idNum
  | none => "ID_" ++ idNum

theorem pyReplace_single_char (s : String) (t : Char) :
    pyReplace s (String.mk [t]) "_" =
      String.mk (s.data.map (fun c => if c = t then '_' else c)) := by
  show String.mk (replaceList t [] ['_'] s.data) = _
  rw [replaceList_single]

theorem foldl_pyReplace_data (ts : List Char) : ∀ s : String,
    (ts.foldl (fun acc c => pyReplace acc (String.mk [c]) "_") s).data =
      ts.foldl (fun l t => l.map (fun c => if c = t then '_' else c)) s.data := by
  induction ts with
  | nil => intro s; rfl
  | cons t ts ih =>
    intro s
    rw [List.foldl_cons, List.foldl_cons, ih, pyReplace_single_char]

theorem absent_after_foldl (t : Char) (hne : ('_' : Char) ≠ t) :
    ∀ (ts : List Char) (l : List Char), (∀ x ∈ l, x ≠ t) →
      ∀ c ∈ ts.foldl (fun l u => l.map (fun c => if c = u then '_' else c)) l, c ≠ t := by
  intro ts
  induction ts with
  | nil => intro l h c hc; exact h c hc
  | cons u us ih =>
    intro l h c hc
    rw [List.foldl_cons] at hc
    refine ih (l.map _) ?_ c hc
    intro x hx
    obtain ⟨y, hy, hye⟩ := List.mem_map.mp hx
    by_cases hyu : y = u
    · rw [if_pos hyu] at hye; rw [← hye]; exact hne
    · rw [if_neg hyu] at hye; rw [← hye]; exact h y hy

theorem mem_foldl_replChar : ∀ (ts : List Char), ('_' : Char) ∉ ts →
    ∀ (l : List Char) (c : Char),
      c ∈ ts.foldl (fun l t => l.map (fun c => if c = t then '_' else c)) l →
      c ∉ ts := by
  intro ts
  induction ts with
  | nil => intro _ l c _; exact List.not_mem_nil c
  | cons t ts ih =>
    intro hu l c hc hmem
    rw [List.foldl_cons] at hc
    have hut : ('_' : Char) ≠ t := fun h => hu (h ▸ List.mem_cons_self t ts)
    have hu' : ('_' : Char) ∉ ts := fun h => hu (List.mem_cons_of_mem t h)
    rcases List.mem_cons.mp hmem with he | hts
    · subst he
      have habs : ∀ x ∈ l.map (fun y => if y = c then '_' else y), x ≠ c := by
        intro x hx
        obtain ⟨y, hy, hye⟩ := List.mem_map.mp hx
        by_cases hyt : y = c
        · rw [if_pos hyt] at hye; rw [← hye]; exact hut
        · rw [if_neg hyt] at hye; rw [← hye]; exact hyt
      exact absent_after_foldl c hut ts _ habs c hc rfl
    · exact ih hu' (l.map _) c hc hts

/-- C6: with a non-empty display name the created folder's name contains none
of the characters `/ \ : * ? " < > |`; with no display name the folder is
named exactly `ID_<identifier>`. -/
theorem C6_create_identification_folder_correct (idNum : String) (fullname : Option String) :
    (∀ ft, fullname = some ft → ft ≠ "" →
      ((create_identification_folder idNum fullname).data.all
        (fun c => !(invalidChars.contains c))) = true) ∧
    (fullname = none → create_identification_folder idNum fullname = "ID_" ++ idNum) := by
  constructor
  · intro ft hf hne
    subst hf
    show ((if ft ≠ "" then sanitizeFolderName ft else "ID_" ++ idNum).data.all
      (fun c => !(invalidChars.contains c))) = true
    rw [if_pos hne]
    rw [List.all_eq_true]
    intro c hc
    unfold sanitizeFolderName at hc
    rw [foldl_pyReplace_data invalidChars ft] at hc
    have hnm : c ∉ invalidChars := mem_foldl_replChar invalidChars (by decide) ft.data c hc
    cases hcon : invalidChars.contains c
    · rfl
    · exact absurd (List.elem_iff.mp hcon) hnm
  · intro hf
    subst hf
    rfl

/-- Witness for C6 at concrete inputs. -/
theorem C6_create_identification_folder_witness :
    ((create_identification_folder "123456789" (some "a/b\\c:d")).data.all
      (fun c => !(invalidChars.contains c))) = true ∧
    create_identification_folder "123456789" none = "ID_123456789" :=
  ⟨(C6_create_identification_folder_correct "123456789" (some "a/b\\c:d")).1
      "a/b\\c:d" rfl (by decide),
   (C6_create_identification_folder_correct "123456789" none).2 rfl⟩

/-! ### Download detection (`PDFManager.wait_for_new_pdf_download`)

The download directory is observed as a list of file names per polling step:
`initialDir` is the directory at call time and `polls` the sequence of
directory snapshots seen at the fixed `SLEEP_SHORT` polling interval until the
timeout elapses (the timeout bounds the length of `polls`). -/

/-- Python `str.endswith`. -/
def strEndsWith (s pat : String) : Bool :=
  pat.data.isSuffixOf s.data

/-- Model of `DOWNLOAD_DIR.glob("*.pdf")`: the names matching the `.pdf` suffix. -/
def pdfFilter (files : List String) : List String :=
  files.filter (fun f => strEndsWith f ".pdf")

/-- One body iteration of the polling loop: the new files of this snapshot
relative to the initial snapshot, and the first of them not marked as an
in-progress `.crdownload` download, if any. -/
def pollNew (initial snap : List String) : Option String :=
  ((pdfFilter snap).filter (fun f => !(initial.contains f))).find?
    (fun f => !(strEndsWith f ".crdownload"))

/-- The polling loop of `wait_for_new_pdf_download`. -/
def waitLoop (initial : List String) : List (List String) → Option String
  | [] => none
  | snap :: rest =>
    match pollNew initial snap with
    | some f => some f
    | none => waitLoop initial rest

/-- Model of `PDFManager.wait_for_new_pdf_download`: snapshot the matching files at
call time, then poll until a new completed file appears or until timeout. -/
def wait_for_new_pdf_download (initialDir : List String)
    (polls : List (List String)) : Option String :=
  waitLoop (pdfFilter initialDir) polls

theorem pollNew_some_props (initial snap : List String) (f : String)
    (h : pollNew initial snap = some f) :
    f ∈ snap ∧ strEndsWith f ".pdf" = true ∧ f ∉ initial ∧
      strEndsWith f ".crdownload" = false := by
  unfold pollNew at h
  have hmem := List.mem_of_find?_eq_some h
  have hcr := List.find?_some h
  rw [List.mem_filter] at hmem
  have hpdf := hmem.1
  unfold pdfFilter at hpdf
  rw [List.mem_filter] at hpdf
  refine ⟨hpdf.1, hpdf.2, ?_, ?_⟩
  · intro hf
    have h2 : initial.contains f = true := List.elem_iff.mpr hf
    have h3 := hmem.2
    rw [h2] at h3
    exact Bool.noConfusion h3
  · revert hcr
    cases strEndsWith f ".crdownload"
    · intro _; rfl
    · intro hcr; exact Bool.noConfusion hcr

theorem waitLoop_some (initial : List String) :
    ∀ (polls : List (List String)) (f : String),
      waitLoop initial polls = some f →
      ∃ pre snap post, polls = pre ++ snap :: post ∧
        (∀ s ∈ pre, pollNew initial s = none) ∧ pollNew initial snap = some f := by
  intro polls
  induction polls with
  | nil =>
    intro f h
    rw [waitLoop] at h
    exact Option.noConfusion h
  | cons snap rest ih =>
    intro f h
    rw [waitLoop] at h
    cases hp : pollNew initial snap
    · rw [hp] at h
      dsimp at h
      obtain ⟨pre, s2, post, hsplit, hpre, hs2⟩ := ih f h
      refine ⟨snap :: pre, s2, post, by rw [hsplit]; rfl, ?_, hs2⟩
      intro s hs
      rcases List.mem_cons.mp hs with he | hm
      · rw [he]; exact hp
      · exact hpre s hm
    · rw [hp] at h
      dsimp at h
      refine ⟨[], snap, rest, rfl, ?_, ?_⟩
      · intro s hs
        exact absurd hs (List.not_mem_nil s)
      · rw [hp, h]

theorem waitLoop_none (initial : List String) :
    ∀ polls : List (List String),
      (∀ s ∈ polls, pollNew initial s = none) → waitLoop initial polls = none := by
  intro polls
  induction polls with
  | nil => intro _; rw [waitLoop]
  | cons snap rest ih =>
    intro h
    rw [waitLoop, h snap (List.mem_cons_self snap rest)]
    exact ih (fun s hs => h s (List.mem_cons_of_mem snap hs))

/-- C7: `wait_for_new_pdf_download` returns only a file that is new relative
to the call-time snapshot of `*.pdf` files, not marked as an in-progress
download, found in the temporally first snapshot containing such a file; it
returns `none` when no poll within the timeout contains one; and a directory
holding only a `.crdownload` file yields `none`. -/
theorem C7_wait_for_new_pdf_download_correct (initialDir : List String)
    (polls : List (List String)) :
    (∀ f, wait_for_new_pdf_download initialDir polls = some f →
      f ∉ pdfFilter initialDir ∧ strEndsWith f ".pdf" = true ∧
      strEndsWith f ".crdownload" = false ∧
      ∃ pre snap post, polls = pre ++ snap :: post ∧
        (∀ s ∈ pre, pollNew (pdfFilter initialDir) s = none) ∧
        pollNew (pdfFilter initialDir) snap = some f ∧ f ∈ snap) ∧
    ((∀ s ∈ polls, pollNew (pdfFilter initialDir) s = none) →
      wait_for_new_pdf_download initialDir polls = none) ∧
    wait_for_new_pdf_download ["r.pdf.crdownload"]
      [["r.pdf.crdownload"], ["r.pdf.crdownload"]] = none := by
  refine ⟨?_, ?_, ?_⟩
  · intro f h
    obtain ⟨pre, snap, post, hsplit, hpre, hsnap⟩ :=
      waitLoop_some (pdfFilter initialDir) polls f h
    obtain ⟨hmem, hpdf, hnotinit, hcr⟩ :=
      pollNew_some_props (pdfFilter initialDir) snap f hsnap
    exact ⟨hnotinit, hpdf, hcr, pre, snap, post, hsplit, hpre, hsnap, hmem⟩
  · exact waitLoop_none (pdfFilter initialDir) polls
  · rfl

/-- Witness for C7: a poll sequence with no new completed file yields `none`. -/
theorem C7_wait_for_new_pdf_download_witness :
    wait_for_new_pdf_download ["a.pdf"] [["a.pdf"]] = none :=
  (C7_wait_for_new_pdf_download_correct ["a.pdf"] [["a.pdf"]]).2.1 (by decide)

/-! ### Download claiming (`PDFManager.move_pdf_to_folder`, post-popup variant)

The filesystem is a duplicate-free list of existing file paths (path components
joined with `/`); `shutil.move` either succeeds or raises (`moveRaises`), the
raise being caught by the source's handler. -/

/-- Outcomes of the primitives one `move_pdf_to_folder` call performs. -/
structure MoveEnv where
  moveRaises : Bool
  timestamp : Nat
deriving DecidableEq

/-- Model of `Path.name`: the final path component. -/
def fileName (p : String) : String :=
  (p.splitOn "/").getLastD p

/-- The keyword detection on the source filename. -/
def detectKeyword (nm : String) : String :=
  if containsSub nm "פיצויים" = true then "פיצויים"
  else if containsSub nm "תגמולים" = true then "תגמולים"
  else ""

/-- The unique target filename `<key>[_<keyword>]_<timestamp>.pdf`. -/
def claimedFileName (idNum keyword : String) (timestamp : Nat) : String :=
  idNum ++ (if keyword ≠ "" then "_" ++ keyword else "") ++ "_" ++ toString timestamp ++ ".pdf"

/-- Model of `PDFManager.move_pdf_to_folder`: returns the new path and the filesystem
after the call; `none` when the file is falsy or absent, or when the move
raised (the handler logs and returns `None`). -/
def move_pdf_to_folder (env : MoveEnv) (fs : List String) (pdf_file : Option String)
    (target_folder idNum : String) : Option String × List String :=
  match pdf_file with
  | none => (none, fs)
  | some pf =>
    if fs.contains pf then
      let targetPath := target_folder ++ "/" ++
        claimedFileName idNum (detectKeyword (fileName pf)) env.timestamp
      if env.moveRaises then (none, fs)
      else (some targetPath, targetPath :: fs.erase pf)
    else (none, fs)

/-- C8: claiming an existing observed file once puts exactly one file at the
target path (named `<identifier>[_<keyword>]_<timestamp>.pdf`) and removes the
source; a second claim of the same source returns `none` without raising; and
a filesystem error during the move yields `none` with the filesystem
unchanged, never a propagating exception. -/
theorem C8_move_pdf_to_folder_correct (env env2 : MoveEnv) (fs : List String)
    (pf target_folder idNum : String)
    (hnodup : fs.Nodup) (hmem : pf ∈ fs) (hok : env.moveRaises = false)
    (hfresh : target_folder ++ "/" ++
      claimedFileName idNum (detectKeyword (fileName pf)) env.timestamp ∉ fs) :
    ∃ tp fs2,
      move_pdf_to_folder env fs (some pf) target_folder idNum = (some tp, fs2) ∧
      tp = target_folder ++ "/" ++
        claimedFileName idNum (detectKeyword (fileName pf)) env.timestamp ∧
      fs2.count tp = 1 ∧ pf ∉ fs2 ∧
      move_pdf_to_folder env2 fs2 (some pf) target_folder idNum = (none, fs2) ∧
      ∀ (env3 : MoveEnv) (fs3 : List String), env3.moveRaises = true →
        move_pdf_to_folder env3 fs3 (some pf) target_folder idNum = (none, fs3) := by
  have hcon : fs.contains pf = true := List.elem_iff.mpr hmem
  have hne : pf ≠ target_folder ++ "/" ++
      claimedFileName idNum (detectKeyword (fileName pf)) env.timestamp := by
    intro he
    exact hfresh (he ▸ hmem)
  refine ⟨target_folder ++ "/" ++
      claimedFileName idNum (detectKeyword (fileName pf)) env.timestamp,
    (target_folder ++ "/" ++
      claimedFileName idNum (detectKeyword (fileName pf)) env.timestamp) :: fs.erase pf,
    ?_, rfl, ?_, ?_, ?_, ?_⟩
  · simp only [move_pdf_to_folder]
    rw [if_pos hcon, hok]
    simp
  · rw [List.count_cons_self]
    have hz : (fs.erase pf).count (target_folder ++ "/" ++
        claimedFileName idNum (detectKeyword (fileName pf)) env.timestamp) = 0 := by
      rw [List.count_eq_zero]
      intro hmem2
      exact hfresh (List.mem_of_mem_erase hmem2)
    rw [hz]
  · intro hpf
    rcases List.mem_cons.mp hpf with he | hm
    · exact hne he
    · rw [List.Nodup.mem_erase_iff hnodup] at hm
      exact hm.1 rfl
  · have hnm : pf ∉ (target_folder ++ "/" ++
        claimedFileName idNum (detectKeyword (fileName pf)) env.timestamp) :: fs.erase pf := by
      intro hpf
      rcases List.mem_cons.mp hpf with he | hm
      · exact hne he
      · rw [List.Nodup.mem_erase_iff hnodup] at hm
        exact hm.1 rfl
    have hc2 : ((target_folder ++ "/" ++
        claimedFileName idNum (detectKeyword (fileName pf)) env.timestamp) ::
          fs.erase pf).contains pf = false := by
      cases h : ((target_folder ++ "/" ++
          claimedFileName idNum (detectKeyword (fileName pf)) env.timestamp) ::
            fs.erase pf).contains pf
      · rfl
      · exact absurd (List.elem_iff.mp h) hnm
    simp only [move_pdf_to_folder]
    rw [hc2]
    simp
  · intro env3 fs3 hr
    cases hc : fs3.contains pf
    · simp only [move_pdf_to_folder]
      rw [hc]
      simp
    · simp only [move_pdf_to_folder]
      rw [hc, hr]
      simp

/-- Witness for C8 at a concrete filesystem. -/
theorem C8_move_pdf_to_folder_witness :
    (move_pdf_to_folder ⟨false, 5⟩ ["dl/a.pdf"] (some "dl/a.pdf") "folder" "123").2.count
      ("folder" ++ "/" ++ claimedFileName "123" (detectKeyword (fileName "dl/a.pdf")) 5) = 1 := by
  obtain ⟨tp, fs2, h1, htp, hcount, _⟩ :=
    C8_move_pdf_to_folder_correct ⟨false, 5⟩ ⟨false, 9⟩ ["dl/a.pdf"] "dl/a.pdf"
      "folder" "123" (by decide) (by decide) rfl (by decide)
  have htp5 : tp = "folder" ++ "/" ++
      claimedFileName "123" (detectKeyword (fileName "dl/a.pdf")) 5 := htp
  rw [h1]
  rw [htp5] at hcount
  exact hcount

/-! ### The per-client pipeline (`ClientProcessor.process_client`) and the
batch loop (`handle_post_popup_actions`)

Each client's run is summarized by the outcomes of its catching steps: the
search/filter step, the resolved display name (if any), the detail-navigation
step, and the two report steps whose boolean results the source only logs.
`process_client` returns its boolean result together with the client folders
it created. -/

/-- Observed step outcomes for one client. -/
structure ClientEnv where
  searchOk : Bool
  fullname : Option String
  navOk : Bool
  pdfOk : Bool
  saverOk : Bool
deriving DecidableEq

/-- Model of `ClientProcessor.process_client`: search, create the client folder, open
details; the PDF-report step and the saver-products step are attempted but
their failures only produce warnings. -/
def process_client (env : ClientEnv) (idNum : String) : Bool × List String :=
  if env.searchOk then
    let folder := create_identification_folder idNum env.fullname
    if env.navOk then
      let _pdfSuccess := env.pdfOk
      let _saverSuccess := env.saverOk
      (true, [folder])
    else (false, [folder])
  else (false, [])

/-- The loop of `handle_post_popup_actions`: success count and the folders
created over the batch, in list order. -/
def processBatch (batch : List (String × ClientEnv)) : Nat × List String :=
  batch.foldl (fun acc p =>
    (acc.1 + (if (process_client p.2 p.1).1 then 1 else 0),
      acc.2 ++ (process_client p.2 p.1).2)) (0, [])

/-- Model of `handle_post_popup_actions`: an empty batch returns `False` at once;
otherwise every client is processed and the call reports success iff at least
one client succeeded, together with the success count and created folders. -/
def handle_post_popup_actions (batch : List (String × ClientEnv)) :
    Bool × Nat × List String :=
  if batch.isEmpty then (false, 0, [])
  else
    let r := processBatch batch
    (decide (0 < r.1), r)

theorem processBatch_aux : ∀ (batch : List (String × ClientEnv)) (acc : Nat × List String),
    (batch.foldl (fun acc p =>
      (acc.1 + (if (process_client p.2 p.1).1 then 1 else 0),
        acc.2 ++ (process_client p.2 p.1).2)) acc) =
      (acc.1 + (batch.filter (fun p => (process_client p.2 p.1).1)).length,
        acc.2 ++ batch.flatMap (fun p => (process_client p.2 p.1).2)) := by
  intro batch
  induction batch with
  | nil =>
    intro acc
    simp
  | cons p t ih =>
    intro acc
    rw [List.foldl_cons, ih]
    rw [List.filter_cons, List.flatMap_cons]
    by_cases hp : (process_client p.2 p.1).1
    · rw [if_pos hp, if_pos hp]
      simp [Nat.add_assoc, Nat.add_comm 1]
    · rw [if_neg hp]
      simp only [hp]
      simp
  
theorem processBatch_spec (batch : List (String × ClientEnv)) :
    processBatch batch =
      ((batch.filter (fun p => (process_client p.2 p.1).1)).length,
        batch.flatMap (fun p => (process_client p.2 p.1).2)) := by
  unfold processBatch
  rw [processBatch_aux]
  simp

/-- C9: no client's failure aborts the batch: the loop visits every entry in
order, the reported success count is the number of successful clients and the
created folders are those of the visited clients in order; in particular a
3-client batch whose second client's filter step fails produces exactly the
two other clients' folders and reports success count 2 of 3. -/
theorem C9_handle_post_popup_actions_batch (batch : List (String × ClientEnv)) :
    (processBatch batch =
      ((batch.filter (fun p => (process_client p.2 p.1).1)).length,
        batch.flatMap (fun p => (process_client p.2 p.1).2))) ∧
    (∀ (id1 id2 id3 : String) (n1 n3 : Option String),
      handle_post_popup_actions
        [(id1, ⟨true, n1, true, true, true⟩),
         (id2, ⟨false, none, true, true, true⟩),
         (id3, ⟨true, n3, true, true, true⟩)] =
        (true, 2,
          [create_identification_folder id1 n1, create_identification_folder id3 n3])) := by
  constructor
  · exact processBatch_spec batch
  · intro id1 id2 id3 n1 n3
    simp [handle_post_popup_actions, processBatch, process_client]

/-- C10: `process_client` returns `True` whenever search and detail-navigation
succeed, regardless of the PDF-report and saver-products outcomes; and
`handle_post_popup_actions` reports `True` iff at least one client of a
non-empty batch succeeded (an empty batch reports `False`). -/
theorem C10_process_client_batch_result (env : ClientEnv) (idNum : String)
    (batch : List (String × ClientEnv)) :
    (env.searchOk = true → env.navOk = true → (process_client env idNum).1 = true) ∧
    (∀ (n : Option String) (idn : String),
      (process_client ⟨true, n, true, false, false⟩ idn).1 = true) ∧
    (batch ≠ [] → ((handle_post_popup_actions batch).1 = true ↔
      ∃ p ∈ batch, (process_client p.2 p.1).1 = true)) ∧
    handle_post_popup_actions [] = (false, 0, []) := by
  refine ⟨?_, ?_, ?_, rfl⟩
  · intro hs hn
    unfold process_client
    rw [hs, hn]
    simp
  · intro n idn
    rfl
  · intro hne
    have hie : batch.isEmpty = false := by
      cases batch
      · exact absurd rfl hne
      · rfl
    unfold handle_post_popup_actions
    rw [hie]
    simp only [Bool.false_eq_true, if_false, decide_eq_true_eq]
    rw [processBatch_spec]
    constructor
    · intro hpos
      have hfne : batch.filter (fun p => (process_client p.2 p.1).1) ≠ [] := by
        intro hnil
        rw [hnil] at hpos
        simp at hpos
      obtain ⟨q, hq⟩ := List.exists_mem_of_ne_nil _ hfne
      have hq2 := List.mem_filter.mp hq
      exact ⟨q, hq2.1, hq2.2⟩
    · intro ⟨q, hq, hqt⟩
      have : q ∈ batch.filter (fun p => (process_client p.2 p.1).1) :=
        List.mem_filter.mpr ⟨hq, hqt⟩
      have hlen := List.length_pos.mpr (List.ne_nil_of_mem this)
      exact hlen

/-- Witness for C10 at a concrete client and the empty batch. -/
theorem C10_process_client_batch_result_witness :
    (process_client ⟨true, none, true, false, false⟩ "111").1 = true ∧
    ((handle_post_popup_actions [("1", ⟨false, none, false, false, false⟩)]).1 = true ↔
      ∃ p ∈ [(("1" : String), (⟨false, none, false, false, false⟩ : ClientEnv))],
        (process_client p.2 p.1).1 = true) :=
  ⟨(C10_process_client_batch_result ⟨true, none, true, false, false⟩ "111" []).1 rfl rfl,
   (C10_process_client_batch_result ⟨true, none, true, false, false⟩ "111"
      [("1", ⟨false, none, false, false, false⟩)]).2.2.1 (by decide)⟩

/-! ### The policy drill-down (`ProductDataProcessor._get_policy_data_for_number`)

Browser state is the ordered list of open window handles (creation order, as
Selenium's `window_handles` reports them) plus the active handle. The
environment records the outcome of every primitive the drill-down calls:
whether `window.open` raised, whether a new handle appeared, whether
`driver.get` in the new tab raised, the result of
`_click_product_details_tab`, whether the policy link was found, whether
clicking it raised, and the observed contents of the two sub-record tabs. -/

/-- Browser window state. -/
structure BState where
  windows : List Nat
  current : Nat
deriving DecidableEq

/-- A handle distinct from all open ones, for a newly opened tab. -/
def fresh (ws : List Nat) : Nat := ws.foldr max 0 + 1

/-- The liens/foreclosures tab: whether the `PolicyConfiscationContent`
element was found, and per row the label/value texts (`none` when reading the
row raised and the per-row handler skipped it). -/
structure LiensEnv where
  contentFound : Bool
  rows : List (Option (String × String))

/-- The loans tab: whether the `PolicyLoanGrid` table was found, the header
cell texts, and per row its cell texts (`none` when reading the row raised). -/
structure LoansEnv where
  tableFound : Bool
  headerTexts : List String
  rows : List (Option (List String))

/-- Sub-tab outcomes for `_click_specific_tabs`. -/
structure TabsEnv where
  liensTabFound : Bool
  liens : LiensEnv
  loansTabFound : Bool
  loans : LoansEnv

/-- Primitive outcomes for one `_get_policy_data_for_number` drill-down. -/
structure DrillEnv where
  openRaises : Bool
  openCreates : Bool
  getRaises : Bool
  tabClickOk : Bool
  linkFound : Bool
  linkClickRaises : Bool
  tabs : TabsEnv

/-- Model of `ProductDataProcessor._extract_liens_data`. -/
def extract_liens_data (env : LiensEnv) : List String :=
  if env.contentFound = true then
    "" :: "שעבודים ועיקולים" ::
      env.rows.filterMap (fun r =>
        match r with
        | none => none
        | some (lab, v) =>
          let lt := pyStrip lab
          let vt := pyStrip v
          if lt ≠ "" ∧ vt ≠ "" then some ("    " ++ lt ++ ": " ++ vt) else none)
  else ["ERROR - Failed to extract data"]

/-- The non-empty trimmed header texts of the loans table. -/
def loans_headers (env : LoansEnv) : List String :=
  env.headerTexts.filterMap (fun h =>
    let t := pyStrip h
    if t = "" then none else some t)

/-- One cell of a loans row: emitted only under the two fixed header names,
the second with its ` (₪)` suffix removed. -/
def loan_cell_data (headers : List String) (i : Nat) (cell : String) : List String :=
  let t := pyStrip cell
  if t ≠ "" ∧ i < headers.length then
    (if headers.getD i "" = "האם קיימת הלוואה" then
      [headers.getD i "" ++ ": " ++ t] else []) ++
    (if headers.getD i "" = "יתרה לתשלום (₪)" then
      [pyReplace (headers.getD i "") " (₪)" "" ++ ": " ++ t] else [])
  else []

/-- Model of `ProductDataProcessor._extract_loans_data`. -/
def extract_loans_data (env : LoansEnv) : List String :=
  if env.tableFound = true then
    "" :: "הלוואות" ::
      env.rows.flatMap (fun r =>
        match r with
        | none => []
        | some cells =>
          let rd := cells.enum.flatMap (fun p => loan_cell_data (loans_headers env) p.1 p.2)
          if rd ≠ [] then rd ++ [""] else [])
  else ["    ERROR - Failed to extract data"]

/-- Model of `ProductDataProcessor._click_specific_tabs`: each tab is extracted only
when its tab link is found. -/
def click_specific_tabs (env : TabsEnv) : List String :=
  (if env.liensTabFound = true then extract_liens_data env.liens else []) ++
  (if env.loansTabFound = true then extract_loans_data env.loans else [])

/-- Model of `ProductDataProcessor._navigate_back_to_main_page`: open a tab, find the
new handle by scanning for one different from the original, switch to it and
navigate; on a raise the handler switches back to the original handle (but
closes nothing). -/
def navigate_back_to_main_page (env : DrillEnv) (s : BState) : Option Nat × BState :=
  if env.openRaises then
    (none, s)
  else
    let s1 : BState :=
      if env.openCreates then { s with windows := s.windows ++ [fresh s.windows] } else s
    match s1.windows.find? (fun h => h != s.current) with
    | none => (none, s1)
    | some nw =>
      if env.getRaises then
        (none, { s1 with current := s.current })
      else
        (some nw, { s1 with current := nw })

/-- Model of `driver.close()` on the active tab followed by
`driver.switch_to.window(driver.window_handles[0])`. -/
def close_and_return_first (s : BState) : BState :=
  let ws := s.windows.erase s.current
  { windows := ws, current := ws.headD 0 }

/-- The header line `מספר פוליסה: <N>`. -/
def policyHeader (policyNumber : String) : String :=
  "מספר פוליסה: " ++ policyNumber

/-- Model of `ProductDataProcessor._get_policy_data_for_number`. -/
def get_policy_data_for_number (env : DrillEnv) (policyNumber : String) (s : BState) :
    List String × BState :=
  match navigate_back_to_main_page env s with
  | (some _, s1) =>
    if env.tabClickOk then
      if env.linkFound then
        if env.linkClickRaises then
          ([], if 1 < s1.windows.length then close_and_return_first s1 else s1)
        else
          (policyHeader policyNumber :: click_specific_tabs env.tabs,
            close_and_return_first s1)
      else ([], close_and_return_first s1)
    else ([], close_and_return_first s1)
  | (none, s1) => ([], s1)

/-- The drill-down environment in which `window.open` succeeds and creates a
tab but `driver.get` in the new tab raises. -/
def leakEnv : DrillEnv where
  openRaises := false
  openCreates := true
  getRaises := true
  tabClickOk := true
  linkFound := true
  linkClickRaises := false
  tabs := ⟨false, ⟨false, []⟩, false, ⟨false, [], []⟩⟩

/-- C1 counterexample: starting from the single window `1`, a drill-down whose
new-tab navigation (`driver.get`) raises returns with window set `[1, 2]` —
the opened tab leaks, so the window set is not restored. -/
theorem C1_window_invariant_counterexample :
    (get_policy_data_for_number leakEnv "123456" ⟨[1], 1⟩).2.windows = [1, 2] ∧
    ¬ (get_policy_data_for_number leakEnv "123456" ⟨[1], 1⟩).2.windows = [1] := by
  constructor
  · rfl
  · decide

/-- C1 amended: provided the call starts with exactly one open window (the
active one) and `driver.get` in the freshly opened tab does not raise, every
drill-down attempt — including ones failing at tab opening, product-details
tab lookup, policy-link lookup, or link activation — restores the initial
window set and active window exactly. -/
theorem C1_window_invariant_amended (env : DrillEnv) (policyNumber : String) (w : Nat)
    (hget : env.getRaises = false) :
    (get_policy_data_for_number env policyNumber ⟨[w], w⟩).2 = ⟨[w], w⟩ := by
  have hfresh : fresh [w] = w + 1 := by
    simp [fresh]
  have hb : (w + 1 != w) = true := by
    rw [bne_iff_ne]
    exact Nat.succ_ne_self w
  cases hor : env.openRaises
  · cases hoc : env.openCreates
    · have hnav : navigate_back_to_main_page env ⟨[w], w⟩ = (none, ⟨[w], w⟩) := by
        unfold navigate_back_to_main_page
        rw [hor, hoc]
        simp [List.find?]
      unfold get_policy_data_for_number
      rw [hnav]
    · have hnav : navigate_back_to_main_page env ⟨[w], w⟩ =
          (some (w + 1), ⟨[w, w + 1], w + 1⟩) := by
        unfold navigate_back_to_main_page
        rw [hor, hoc, hget]
        simp [hfresh, List.find?, hb]
      have hclose : close_and_return_first ⟨[w, w + 1], w + 1⟩ = ⟨[w], w⟩ := by
        unfold close_and_return_first
        have he : ([w, w + 1] : List Nat).erase (w + 1) = [w] := by
          rw [List.erase_cons, if_neg (by simp [Nat.succ_ne_self])]
          rw [List.erase_cons, if_pos (by simp)]
        simp [he]
      unfold get_policy_data_for_number
      rw [hnav]
      cases htc : env.tabClickOk
      · exact hclose
      · cases hlf : env.linkFound
        · exact hclose
        · cases hlc : env.linkClickRaises
          · exact hclose
          · exact hclose
  · have hnav : navigate_back_to_main_page env ⟨[w], w⟩ = (none, ⟨[w], w⟩) := by
      unfold navigate_back_to_main_page
      rw [hor]
      rfl
    unfold get_policy_data_for_number
    rw [hnav]

/-- Witness for the amended C1 at a concrete environment and window. -/
theorem C1_window_invariant_witness :
    (get_policy_data_for_number
      ⟨false, true, false, true, true, false, ⟨false, ⟨false, []⟩, false, ⟨false, [], []⟩⟩⟩
      "5" ⟨[7], 7⟩).2 = ⟨[7], 7⟩ :=
  C1_window_invariant_amended _ "5" 7 rfl

/-- C2: for every sub-record number, the drill-down's returned line list is
either empty or starts with the header line `מספר פוליסה: <N>`, which contains
`N`; no other first line is possible, whatever steps fail. -/
theorem C2_drilldown_header_or_empty (env : DrillEnv) (policyNumber : String) (s : BState) :
    (get_policy_data_for_number env policyNumber s).1 = [] ∨
    ∃ rest, (get_policy_data_for_number env policyNumber s).1 =
        policyHeader policyNumber :: rest ∧
      ∃ pre suf, policyHeader policyNumber = pre ++ policyNumber ++ suf := by
  unfold get_policy_data_for_number
  rcases hnav : navigate_back_to_main_page env s with ⟨o, s1⟩
  rcases o with _ | nw
  · exact Or.inl rfl
  · cases htc : env.tabClickOk
    · exact Or.inl rfl
    · cases hlf : env.linkFound
      · exact Or.inl rfl
      · cases hlc : env.linkClickRaises
        · exact Or.inr ⟨click_specific_tabs env.tabs, rfl,
            "מספר פוליסה: ", "", (String.append_empty _).symm⟩
        · exact Or.inl rfl

/-- The drill-down environment whose navigation succeeds, the liens tab is
found, but the liens content element lookup raises. -/
def errSectionEnv : DrillEnv where
  openRaises := false
  openCreates := true
  getRaises := false
  tabClickOk := true
  linkFound := true
  linkClickRaises := false
  tabs := ⟨true, ⟨false, []⟩, false, ⟨false, [], []⟩⟩

/-- C3 counterexample: a drill-down whose navigation steps all succeed but
whose liens content element is missing emits the error-placeholder line
`ERROR - Failed to extract data` for that individual section, even though the
drill-down as a whole did not fail and returns a non-empty line list. -/
theorem C3_section_error_counterexample :
    (get_policy_data_for_number errSectionEnv "777" ⟨[1], 1⟩).1 =
      ["מספר פוליסה: 777", "ERROR - Failed to extract data"] ∧
    "ERROR - Failed to extract data" ∈
      (get_policy_data_for_number errSectionEnv "777" ⟨[1], 1⟩).1 ∧
    (get_policy_data_for_number errSectionEnv "777" ⟨[1], 1⟩).1 ≠ [] := by
  refine ⟨rfl, ?_, ?_⟩
  · exact List.mem_cons_of_mem _ (List.mem_cons_self _ _)
  · intro h
    exact List.noConfusion h

theorem colon_mem_line (a t : String) : ':' ∈ (a ++ ": " ++ t).data := by
  rw [String.data_append, String.data_append]
  exact List.mem_append.mpr (Or.inl (List.mem_append.mpr (Or.inr (by decide))))

theorem extract_liens_data_lines (env : LiensEnv) (h : env.contentFound = true) :
    ∀ x ∈ extract_liens_data env, x = "" ∨ x = "שעבודים ועיקולים" ∨ ':' ∈ x.data := by
  intro x hx
  unfold extract_liens_data at hx
  rw [h] at hx
  simp only [if_pos rfl] at hx
  rcases List.mem_cons.mp hx with h1 | h1
  · exact Or.inl h1
  rcases List.mem_cons.mp h1 with h2 | h2
  · exact Or.inr (Or.inl h2)
  obtain ⟨r, _, hre⟩ := List.mem_filterMap.mp h2
  rcases r with _ | ⟨lab, v⟩
  · exact absurd hre (by simp)
  dsimp only at hre
  by_cases hc : pyStrip lab ≠ "" ∧ pyStrip v ≠ ""
  · rw [if_pos hc] at hre
    have hxe := Option.some.inj hre
    refine Or.inr (Or.inr ?_)
    rw [← hxe]
    exact colon_mem_line ("    " ++ pyStrip lab) (pyStrip v)
  · rw [if_neg hc] at hre
    exact absurd hre (by simp)

theorem extract_loans_data_lines (env : LoansEnv) (h : env.tableFound = true) :
    ∀ x ∈ extract_loans_data env, x = "" ∨ x = "הלוואות" ∨ ':' ∈ x.data := by
  intro x hx
  unfold extract_loans_data at hx
  rw [h] at hx
  simp only [if_pos rfl] at hx
  rcases List.mem_cons.mp hx with h1 | h1
  · exact Or.inl h1
  rcases List.mem_cons.mp h1 with h2 | h2
  · exact Or.inr (Or.inl h2)
  obtain ⟨r, _, hxr⟩ := List.mem_flatMap.mp h2
  rcases r with _ | cells
  · exact absurd hxr (by simp)
  dsimp only at hxr
  by_cases hrd : cells.enum.flatMap
      (fun p => loan_cell_data (loans_headers env) p.1 p.2) ≠ []
  · rw [if_pos hrd] at hxr
    rcases List.mem_append.mp hxr with h3 | h3
    · obtain ⟨p, _, hcell⟩ := List.mem_flatMap.mp h3
      unfold loan_cell_data at hcell
      by_cases hcond : pyStrip p.2 ≠ "" ∧ p.1 < (loans_headers env).length
      · rw [if_pos hcond] at hcell
        rcases List.mem_append.mp hcell with h4 | h4
        · by_cases h5 : (loans_headers env).getD p.1 "" = "האם קיימת הלוואה"
          · rw [if_pos h5] at h4
            rw [List.mem_singleton] at h4
            refine Or.inr (Or.inr ?_)
            rw [h4]
            exact colon_mem_line _ _
          · rw [if_neg h5] at h4
            exact absurd h4 (List.not_mem_nil x)
        · by_cases h5 : (loans_headers env).getD p.1 "" = "יתרה לתשלום (₪)"
          · rw [if_pos h5] at h4
            rw [List.mem_singleton] at h4
            refine Or.inr (Or.inr ?_)
            rw [h4]
            exact colon_mem_line _ _
          · rw [if_neg h5] at h4
            exact absurd h4 (List.not_mem_nil x)
      · rw [if_neg hcond] at hcell
        exact absurd hcell (List.not_mem_nil x)
    · rw [List.mem_singleton] at h3
      exact Or.inl h3
  · rw [if_neg hrd] at hxr
    exact absurd hxr (List.not_mem_nil x)

/-- C3 amended: a sub-tab whose tab link is not found is omitted entirely, and
as long as each clicked sub-tab's content element is found, no
error-placeholder line appears in the drill-down output even when a section
yields no data rows (a present-but-empty section still contributes its section
header); but when a clicked sub-tab's content element lookup raises, an
error-placeholder line for that individual section is emitted. -/
theorem C3_section_error_amended (env : TabsEnv)
    (hliens : env.liensTabFound = true → env.liens.contentFound = true)
    (hloans : env.loansTabFound = true → env.loans.tableFound = true) :
    "ERROR - Failed to extract data" ∉ click_specific_tabs env ∧
    "    ERROR - Failed to extract data" ∉ click_specific_tabs env := by
  have hparts : ∀ x ∈ click_specific_tabs env,
      x = "" ∨ x = "שעבודים ועיקולים" ∨ x = "הלוואות" ∨ ':' ∈ x.data := by
    intro x hx
    unfold click_specific_tabs at hx
    rcases List.mem_append.mp hx with h | h
    · by_cases ht : env.liensTabFound = true
      · rw [if_pos ht] at h
        rcases extract_liens_data_lines env.liens (hliens ht) x h with h1 | h1 | h1
        · exact Or.inl h1
        · exact Or.inr (Or.inl h1)
        · exact Or.inr (Or.inr (Or.inr h1))
      · rw [if_neg ht] at h
        exact absurd h (List.not_mem_nil x)
    · by_cases ht : env.loansTabFound = true
      · rw [if_pos ht] at h
        rcases extract_loans_data_lines env.loans (hloans ht) x h with h1 | h1 | h1
        · exact Or.inl h1
        · exact Or.inr (Or.inr (Or.inl h1))
        · exact Or.inr (Or.inr (Or.inr h1))
      · rw [if_neg ht] at h
        exact absurd h (List.not_mem_nil x)
  constructor
  · intro hmem
    rcases hparts _ hmem with h | h | h | h
    · exact absurd h (by decide)
    · exact absurd h (by decide)
    · exact absurd h (by decide)
    · exact absurd h (by decide)
  · intro hmem
    rcases hparts _ hmem with h | h | h | h
    · exact absurd h (by decide)
    · exact absurd h (by decide)
    · exact absurd h (by decide)
    · exact absurd h (by decide)

/-- Witness for the amended C3: found content elements, no error placeholder. -/
theorem C3_section_error_witness :
    "ERROR - Failed to extract data" ∉
      click_specific_tabs ⟨true, ⟨true, []⟩, false, ⟨false, [], []⟩⟩ :=
  (C3_section_error_amended ⟨true, ⟨true, []⟩, false, ⟨false, [], []⟩⟩
    (fun _ => rfl) (fun hc => Bool.noConfusion hc)).1

/-- Witness for C5 at a concrete detail box. -/
theorem C5_extract_all_detail_box_data_witness :
    ((extract_all_detail_box_data
      ⟨false, [some ⟨" v ", "n", "", ""⟩], false, [some ⟨"12 ₪", ""⟩], false, [],
        false, [], false, ""⟩).map Prod.fst).Nodup :=
  (C5_extract_all_detail_box_data_invariant
    ⟨false, [some ⟨" v ", "n", "", ""⟩], false, [some ⟨"12 ₪", ""⟩], false, [],
      false, [], false, ""⟩).1
